import Mathlib

/-!
XenoScan engine: address-space model, Windows target backend, keyed factory

A shallow embedding of `ScannerTypes.h`, `ScannerTargetWindows.cpp` and
`KeyedFactory.h`.

* Pointer-width values (`size_t`, `void*`) are natural numbers; `w` is the
  pointer width in bits and every `size_t` addition is reduced modulo `2 ^ w`.
  Casts between `size_t` and `MemoryAddress` keep the numeric value.
* The operating system is an explicit record of call results (`Win32`).
* `std::map` / `std::set` are strictly ascending lists.
-/

namespace XenoScan

/-! ## ScannerTypes.h -/

/-- The typedef `void* MemoryAddress`, carried as its numeric value. -/
abbrev MemoryAddress := Nat

/-- The typedef `uint32_t ProcessIdentifier`. -/
abbrev ProcessIdentifier := Nat

/-- The typedef `void* ProcessHandle`; `0` is `NULL`. -/
abbrev ProcessHandle := Nat

/-- Addition of two `size_t` values on a `w`-bit machine. -/
def sizeAdd (w a b : Nat) : Nat := (a + b) % 2 ^ w

/-- Difference `a - b` of two pointer-width values on a `w`-bit machine. -/
def sizeSub (w a b : Nat) : Nat := (a + (2 ^ w - b % 2 ^ w)) % 2 ^ w

/-- The struct `MemoryInformation`. -/
structure MemoryInformation where
  isCommitted : Bool
  isWriteable : Bool
  isExecutable : Bool
  isMirror : Bool
  allocationBase : MemoryAddress
  allocationEnd : MemoryAddress
  allocationSize : Nat
  deriving DecidableEq, Repr

/-- The struct `MemoryMapEntry`: a block of logically mapped memory. -/
structure MemoryMapEntry where
  size : Nat
  isMirror : Bool
  logicalBase : MemoryAddress
  logicalEnd : MemoryAddress
  physicalBase : MemoryAddress
  physicalEnd : MemoryAddress
  deriving DecidableEq, Repr

namespace MemoryMapEntry

/-- Constructor `MemoryMapEntry(const size_t&, const size_t&, const size_t&)`. -/
def fromSize (w : Nat) (physicalBase logicalBase size : Nat) : MemoryMapEntry :=
  { logicalBase := logicalBase
    physicalBase := physicalBase
    size := size
    isMirror := false
    logicalEnd := sizeAdd w logicalBase size
    physicalEnd := sizeAdd w physicalBase size }

/-- Constructor
`MemoryMapEntry(const MemoryAddress&, const MemoryAddress&, const size_t&)`. -/
def fromAddress (w : Nat) (physicalBase logicalBase : MemoryAddress) (size : Nat) :
    MemoryMapEntry :=
  { logicalBase := logicalBase
    physicalBase := physicalBase
    size := size
    isMirror := false
    logicalEnd := sizeAdd w logicalBase size
    physicalEnd := sizeAdd w physicalBase size }

/-- Method `mirror(const MemoryAddress&) const`: copy the entry, set the flag
and the logical base, and return the copy. -/
def mirror (self : MemoryMapEntry) (logicalBase : MemoryAddress) : MemoryMapEntry :=
  let ret := self
  let ret := { ret with isMirror := true }
  let ret := { ret with logicalBase := logicalBase }
  ret

/-- Method `mirror(const size_t&) const`: casts and forwards to the address
overload. -/
def mirrorSize (self : MemoryMapEntry) (logicalBase : Nat) : MemoryMapEntry :=
  self.mirror logicalBase

end MemoryMapEntry

/-! ## ScannerTargetWindows.cpp -/

/-- Windows constant `PAGE_READWRITE`. -/
def PAGE_READWRITE : Nat := 0x04
/-- Windows constant `PAGE_EXECUTE`. -/
def PAGE_EXECUTE : Nat := 0x10
/-- Windows constant `PAGE_EXECUTE_READ`. -/
def PAGE_EXECUTE_READ : Nat := 0x20
/-- Windows constant `PAGE_EXECUTE_READWRITE`. -/
def PAGE_EXECUTE_READWRITE : Nat := 0x40
/-- Windows constant `PAGE_EXECUTE_WRITECOPY`. -/
def PAGE_EXECUTE_WRITECOPY : Nat := 0x80
/-- Windows constant `MEM_COMMIT`. -/
def MEM_COMMIT : Nat := 0x1000
/-- Windows constant `PROCESS_CREATE_THREAD`. -/
def PROCESS_CREATE_THREAD : Nat := 0x0002
/-- Windows constant `PROCESS_VM_OPERATION`. -/
def PROCESS_VM_OPERATION : Nat := 0x0008
/-- Windows constant `PROCESS_VM_READ`. -/
def PROCESS_VM_READ : Nat := 0x0010
/-- Windows constant `PROCESS_VM_WRITE`. -/
def PROCESS_VM_WRITE : Nat := 0x0020
/-- Windows constant `PROCESS_QUERY_INFORMATION`. -/
def PROCESS_QUERY_INFORMATION : Nat := 0x0400

/-- Macro `WIN32_IS_EXECUTABLE_PROT`. -/
def WIN32_IS_EXECUTABLE_PROT (x : Nat) : Bool :=
  x == PAGE_EXECUTE || x == PAGE_EXECUTE_READ || x == PAGE_EXECUTE_READWRITE
    || x == PAGE_EXECUTE_WRITECOPY

/-- Macro `WIN32_IS_WRITEABLE_PROT`. -/
def WIN32_IS_WRITEABLE_PROT (x : Nat) : Bool :=
  x == PAGE_EXECUTE_READWRITE || x == PAGE_READWRITE

/-- The fields of `MEMORY_BASIC_INFORMATION` that `queryMemory` reads. -/
structure MEMORY_BASIC_INFORMATION where
  BaseAddress : MemoryAddress
  AllocationBase : MemoryAddress
  RegionSize : Nat
  State : Nat
  Protect : Nat
  deriving DecidableEq, Repr

/-- The fields of `SYSTEM_INFO` that `attach` reads. -/
structure SYSTEM_INFO where
  dwPageSize : Nat
  lpMinimumApplicationAddress : MemoryAddress
  lpMaximumApplicationAddress : MemoryAddress
  deriving DecidableEq, Repr

/-- The names the backend passes to `GetModuleHandleA` / `GetProcAddress`. -/
inductive Win32Name where
  | kernel32_dll
  | GetModuleHandleA
  | GetModuleHandleW
  deriving DecidableEq, Repr

/-- The results of the operating-system calls the backend makes. A `HANDLE`,
`HMODULE` or function address of `0` is `NULL`; a `BOOL` call that fails is
`none`. -/
structure Win32 where
  /-- Result of `OpenProcess(access, FALSE, pid)`. -/
  OpenProcess : Nat → Bool → Nat → Nat
  /-- Result of `GetModuleHandleA(name)`. -/
  GetModuleHandleA : Win32Name → Nat
  /-- Result of `GetProcAddress(module, name)`. -/
  GetProcAddress : Nat → Win32Name → Nat
  /-- Result of `CreateRemoteThread(process, ..., start, ...)`: the thread handle. -/
  CreateRemoteThread : ProcessHandle → Nat → Nat
  /-- Result of `GetExitCodeThread(thread, &code)`: the 32-bit exit code written. -/
  GetExitCodeThread : Nat → Option Nat
  /-- Result of `GetModuleInformation(process, module, ...)`: `SizeOfImage`. -/
  GetModuleInformation : ProcessHandle → MemoryAddress → Option Nat
  /-- Result of `GetSystemInfo`. -/
  GetSystemInfo : SYSTEM_INFO
  /-- Result of `VirtualQueryEx(process, address, ...)`. -/
  VirtualQueryEx : ProcessHandle → MemoryAddress → Option MEMORY_BASIC_INFORMATION
  /-- Content of the local `baseAddress` of `getMainModuleBaseAddress` before
  `GetExitCodeThread` writes to it. -/
  uninitialized : Nat

/-- The data members of `ScannerTargetWindows` that `attach` and `queryMemory`
use. -/
structure ScannerTargetWindows where
  processHandle : ProcessHandle
  mainModuleStart : MemoryAddress
  mainModuleEnd : MemoryAddress
  pageSize : Nat
  highestAddress : MemoryAddress
  lowestAddress : MemoryAddress
  deriving DecidableEq, Repr

namespace ScannerTargetWindows

/-- Method `isAttached`. -/
def isAttached (self : ScannerTargetWindows) : Bool :=
  self.processHandle != 0

/-- Method `getMainModuleBaseAddress`: run `GetModuleHandle(NULL)` as a thread
of the target and take the thread exit code. `GetExitCodeThread` writes a
`DWORD` over the low 32 bits of the pointer-width local `baseAddress`. -/
def getMainModuleBaseAddress (w : Nat) (os : Win32) (self : ScannerTargetWindows) :
    MemoryAddress :=
  let k32 := os.GetModuleHandleA Win32Name.kernel32_dll
  let funcAdr := os.GetProcAddress k32 Win32Name.GetModuleHandleA
  let funcAdr := if funcAdr = 0 then os.GetProcAddress k32 Win32Name.GetModuleHandleW else funcAdr
  let thread := os.CreateRemoteThread self.processHandle funcAdr
  let baseAddress := os.uninitialized % 2 ^ w
  match os.GetExitCodeThread thread with
  | some code => (baseAddress / 2 ^ 32 * 2 ^ 32 + code % 2 ^ 32) % 2 ^ w
  | none => baseAddress

/-- Method `attach`: the returned flag and the backend afterwards. -/
def attach (w : Nat) (os : Win32) (self : ScannerTargetWindows) (pid : ProcessIdentifier) :
    Bool × ScannerTargetWindows :=
  -- detach if we're attached to something else
  let self := if self.isAttached then { self with processHandle := 0 } else self
  -- open the process
  let _pid := pid % 2 ^ 32
  let handle := os.OpenProcess
    (PROCESS_VM_OPERATION ||| PROCESS_VM_READ ||| PROCESS_VM_WRITE
      ||| PROCESS_QUERY_INFORMATION ||| PROCESS_CREATE_THREAD)
    false _pid
  if handle = 0 then
    (false, self)
  else
    let self := { self with processHandle := handle }
    -- find the main module bounds
    let self := { self with mainModuleStart := getMainModuleBaseAddress w os self }
    if self.mainModuleStart = 0 then
      (false, self)
    else
      match os.GetModuleInformation self.processHandle self.mainModuleStart with
      | none => (false, self)
      | some SizeOfImage =>
        let self := { self with mainModuleEnd := sizeAdd w self.mainModuleStart SizeOfImage }
        -- find the system info
        let sysinfo := os.GetSystemInfo
        let self := { self with pageSize := sysinfo.dwPageSize }
        let self := { self with highestAddress := sysinfo.lpMaximumApplicationAddress }
        let self := { self with lowestAddress := sysinfo.lpMinimumApplicationAddress }
        -- we good!
        (true, self)

/-- Modelled from the spec: the macro `ASSERT` of `Assert.h`, which is not
among the sources. Calling a query while unattached "fails fast": the call
produces no result. -/
def ASSERT {α : Type} (cond : Bool) (body : Option α) : Option α :=
  if cond then body else none

/-- Method `queryMemory`. The argument `meminfo` is the content of the output
reference `meminfo` before the call (`nextAdr` is written on every path, so
its old content plays no part); the result is the returned flag with the
contents of `meminfo` and `nextAdr` after the call, or `none` when the
assertion fails. -/
def queryMemory (w : Nat) (os : Win32) (self : ScannerTargetWindows) (adr : MemoryAddress)
    (meminfo : MemoryInformation) : Option (Bool × MemoryInformation × MemoryAddress) :=
  ASSERT self.isAttached <|
    match os.VirtualQueryEx self.processHandle adr with
    | none =>
      let nextAdr := sizeAdd w adr self.pageSize
      some (false, meminfo, nextAdr)
    | some memoryInfo =>
      let meminfo := { meminfo with isMirror := false }
      let meminfo := { meminfo with isCommitted := memoryInfo.State == MEM_COMMIT }
      let meminfo := { meminfo with allocationBase := memoryInfo.BaseAddress }
      let meminfo := { meminfo with allocationSize := memoryInfo.RegionSize }
      let meminfo :=
        { meminfo with allocationEnd := sizeAdd w meminfo.allocationBase meminfo.allocationSize }
      let meminfo := { meminfo with isExecutable := WIN32_IS_EXECUTABLE_PROT memoryInfo.Protect }
      let meminfo := { meminfo with isWriteable := WIN32_IS_WRITEABLE_PROT memoryInfo.Protect }
      let nextAdr := meminfo.allocationEnd
      some (true, meminfo, nextAdr)

end ScannerTargetWindows

/-! ## KeyedFactory.h -/

/-- The interface `KeyedProducerBase<K, A>`: the results of its two virtual
methods. A `std::shared_ptr<A>` is `none` when it is null. -/
structure KeyedProducerBase (K A : Type) where
  getKey : K
  createInstance : Option A

/-- The class template `KeyedProducer<K, A, T>`: `Key` is `T::Key` and `newT`
is the object `new T()` builds; `createInstance` wraps it in a shared pointer. -/
def KeyedProducer {K A : Type} (Key : K) (newT : A) : KeyedProducerBase K A :=
  { getKey := Key
    createInstance := some newT }

/-- Assignment `m[k] = v` on a `std::map`, kept as a list ascending in the key:
the value of an existing entry is replaced, otherwise a new entry is placed in
key order. -/
def mapAssign {K V : Type} [LinearOrder K] : List (K × V) → K → V → List (K × V)
  | [], k, v => [(k, v)]
  | (k1, v1) :: rest, k, v =>
    if k < k1 then (k, v) :: (k1, v1) :: rest
    else if k1 < k then (k1, v1) :: mapAssign rest k v
    else (k1, v) :: rest

/-- Lookup `m.find(k)` on a `std::map`: the mapped value of the entry whose key
is equivalent to `k`, or `none` for `m.end()`. -/
def mapFind {K V : Type} [LinearOrder K] : List (K × V) → K → Option V
  | [], _ => none
  | (k1, v1) :: rest, k =>
    if k < k1 then none
    else if k1 < k then mapFind rest k
    else some v1

/-- Insertion `s.insert(k)` on a `std::set`, kept as an ascending list: an
element already present is not added again. -/
def setInsert {K : Type} [LinearOrder K] : List K → K → List K
  | [], k => [k]
  | k1 :: rest, k =>
    if k < k1 then k :: k1 :: rest
    else if k1 < k then k1 :: setInsert rest k
    else k1 :: rest

/-- The class template `KeyedFactory<K, A>`: its member `producers`. -/
structure KeyedFactory (K A : Type) where
  producers : List (K × KeyedProducerBase K A)

namespace KeyedFactory

variable {K A : Type} [LinearOrder K]

/-- Constructor `KeyedFactory()`: no producers. -/
def new : KeyedFactory K A :=
  { producers := [] }

/-- Method `createInstance`. -/
def createInstance (self : KeyedFactory K A) (key : K) : Option A :=
  match mapFind self.producers key with
  | some producer => producer.createInstance
  | none => none

/-- Method `getKeys`: the key of every map entry, in iteration order, inserted
into a fresh set. -/
def getKeys (self : KeyedFactory K A) : List K :=
  self.producers.foldl (fun ret prod => setInsert ret prod.1) []

/-- Method `registerProducer`. -/
def registerProducer (self : KeyedFactory K A) (producer : KeyedProducerBase K A) :
    KeyedFactory K A :=
  { self with producers := mapAssign self.producers producer.getKey producer }

/-- A run of `registerProducer` calls, first call first. -/
def registerAll (self : KeyedFactory K A) (ps : List (KeyedProducerBase K A)) :
    KeyedFactory K A :=
  ps.foldl registerProducer self

end KeyedFactory

/-! ## Concrete inputs used by the evaluations below -/

/-- An operating system on which every process opens with handle `0x1234`, the
remote thread exits with code `0`, and the module and region queries fail. -/
def osBaseZero : Win32 :=
  { OpenProcess := fun _ _ _ => 0x1234
    GetModuleHandleA := fun _ => 0x7ff0
    GetProcAddress := fun _ _ => 0x7ff8
    CreateRemoteThread := fun _ _ => 0x44
    GetExitCodeThread := fun _ => some 0
    GetModuleInformation := fun _ _ => none
    GetSystemInfo :=
      { dwPageSize := 4096
        lpMinimumApplicationAddress := 0x10000
        lpMaximumApplicationAddress := 0x7ffffffeffff }
    VirtualQueryEx := fun _ _ => none
    uninitialized := 0 }

/-- As `osBaseZero`, but the remote thread exits with code `0x400000`; the
module-information query still fails. -/
def osModuleInfoFails : Win32 :=
  { osBaseZero with GetExitCodeThread := fun _ => some 0x400000 }

/-- An operating system on which attaching succeeds (image of `0x5000` bytes at
`0x400000`) and the region query reports one committed read-write region of
`0x3000` bytes at `0x20000` for every address. -/
def osRegion : Win32 :=
  { osModuleInfoFails with
    GetModuleInformation := fun _ _ => some 0x5000
    VirtualQueryEx := fun _ _ =>
      some { BaseAddress := 0x20000, AllocationBase := 0x20000, RegionSize := 0x3000,
             State := MEM_COMMIT, Protect := PAGE_READWRITE } }

/-- A backend that holds no handle. -/
def unattachedTarget : ScannerTargetWindows :=
  { processHandle := 0, mainModuleStart := 0, mainModuleEnd := 0, pageSize := 0,
    highestAddress := 0, lowestAddress := 0 }

/-- A backend attached with handle `0x1234` and a page size of 4096 bytes. -/
def attachedTarget : ScannerTargetWindows :=
  { processHandle := 0x1234, mainModuleStart := 0x400000, mainModuleEnd := 0x405000,
    pageSize := 4096, highestAddress := 0x7ffffffeffff, lowestAddress := 0x10000 }

/-- A `MemoryInformation` with every field cleared. -/
def blankInfo : MemoryInformation :=
  { isCommitted := false, isWriteable := false, isExecutable := false, isMirror := false,
    allocationBase := 0, allocationEnd := 0, allocationSize := 0 }

/-! ## Pointer-width arithmetic -/

theorem sizeSub_sizeAdd_left (w a b : Nat) : sizeSub w (sizeAdd w a b) a = b % 2 ^ w := by
  unfold sizeSub sizeAdd
  have hM : 0 < 2 ^ w := Nat.two_pow_pos w
  generalize 2 ^ w = M at hM
  have h1 : (a + b) % M ≡ a % M + b [MOD M] :=
    (Nat.mod_modEq _ _).trans ((Nat.mod_modEq a M).symm.add_right b)
  have h2 : (a + b) % M + (M - a % M) ≡ a % M + b + (M - a % M) [MOD M] :=
    h1.add_right _
  have h3 : a % M + b + (M - a % M) = b + M := by
    have := Nat.mod_lt a hM
    omega
  rw [h3] at h2
  exact h2.trans (by simp [Nat.ModEq])

theorem sizeSub_sizeAdd_of_lt (w a b : Nat) (hb : b < 2 ^ w) :
    sizeSub w (sizeAdd w a b) a = b := by
  rw [sizeSub_sizeAdd_left, Nat.mod_eq_of_lt hb]

theorem sizeAdd_of_lt (w a b : Nat) (h : a + b < 2 ^ w) : sizeAdd w a b = a + b := by
  unfold sizeAdd
  exact Nat.mod_eq_of_lt h

/-! ## MemoryMapEntry -/

/-- C6. An entry built by either constructor with a pointer-width size keeps
the given bases and size, is not a mirror, and has
`logicalEnd - logicalBase = size` and `physicalEnd - physicalBase = size` in
arithmetic modulo `2 ^ w`. -/
theorem MemoryMapEntry.constructor_invariant (w physicalBase logicalBase size : Nat)
    (hs : size < 2 ^ w) (e : MemoryMapEntry)
    (he : e = MemoryMapEntry.fromSize w physicalBase logicalBase size
      ∨ e = MemoryMapEntry.fromAddress w physicalBase logicalBase size) :
    sizeSub w e.logicalEnd e.logicalBase = e.size
      ∧ sizeSub w e.physicalEnd e.physicalBase = e.size
      ∧ e.physicalBase = physicalBase ∧ e.logicalBase = logicalBase ∧ e.size = size
      ∧ e.isMirror = false
      ∧ e.logicalEnd < 2 ^ w ∧ e.physicalEnd < 2 ^ w := by
  have hM : 0 < 2 ^ w := Nat.two_pow_pos w
  rcases he with rfl | rfl
  · exact ⟨sizeSub_sizeAdd_of_lt w _ _ hs, sizeSub_sizeAdd_of_lt w _ _ hs, rfl, rfl, rfl, rfl,
      Nat.mod_lt _ hM, Nat.mod_lt _ hM⟩
  · exact ⟨sizeSub_sizeAdd_of_lt w _ _ hs, sizeSub_sizeAdd_of_lt w _ _ hs, rfl, rfl, rfl, rfl,
      Nat.mod_lt _ hM, Nat.mod_lt _ hM⟩

theorem MemoryMapEntry.constructor_invariant_witness :
    (0x100 < 2 ^ 64)
      ∧ sizeSub 64 (MemoryMapEntry.fromAddress 64 0x1000 (2 ^ 64 - 0x80) 0x100).logicalEnd
          (MemoryMapEntry.fromAddress 64 0x1000 (2 ^ 64 - 0x80) 0x100).logicalBase
          = (MemoryMapEntry.fromAddress 64 0x1000 (2 ^ 64 - 0x80) 0x100).size
      ∧ (MemoryMapEntry.fromAddress 64 0x1000 (2 ^ 64 - 0x80) 0x100).logicalEnd = 0x80
      ∧ (MemoryMapEntry.fromAddress 64 0x1000 (2 ^ 64 - 0x80) 0x100).size = 0x100 :=
  ⟨by decide,
    (MemoryMapEntry.constructor_invariant 64 0x1000 (2 ^ 64 - 0x80) 0x100 (by decide) _
      (Or.inr rfl)).1,
    by decide,
    (MemoryMapEntry.constructor_invariant 64 0x1000 (2 ^ 64 - 0x80) 0x100 (by decide) _
      (Or.inr rfl)).2.2.2.2.1⟩

/-- C5. Evaluation at the entry `e` built from physical base `0x1000`, logical
base `0x1000` and size `0x100`, mirrored to `0x2000` on a 64-bit machine: `e`
satisfies both equalities, the mirror keeps the old `logicalEnd = 0x1100`, so
its `logicalEnd - logicalBase` is `2 ^ 64 - 0xf00` and not its size `0x100`;
the physical equality still holds. -/
theorem MemoryMapEntry.mirror_breaks_logical_invariant :
    sizeSub 64 (MemoryMapEntry.fromSize 64 0x1000 0x1000 0x100).logicalEnd
        (MemoryMapEntry.fromSize 64 0x1000 0x1000 0x100).logicalBase = 0x100
      ∧ ((MemoryMapEntry.fromSize 64 0x1000 0x1000 0x100).mirror 0x2000).size = 0x100
      ∧ ((MemoryMapEntry.fromSize 64 0x1000 0x1000 0x100).mirror 0x2000).logicalBase = 0x2000
      ∧ ((MemoryMapEntry.fromSize 64 0x1000 0x1000 0x100).mirror 0x2000).logicalEnd = 0x1100
      ∧ sizeSub 64 ((MemoryMapEntry.fromSize 64 0x1000 0x1000 0x100).mirror 0x2000).logicalEnd
          ((MemoryMapEntry.fromSize 64 0x1000 0x1000 0x100).mirror 0x2000).logicalBase
          = 2 ^ 64 - 0xf00
      ∧ sizeSub 64 ((MemoryMapEntry.fromSize 64 0x1000 0x1000 0x100).mirror 0x2000).logicalEnd
          ((MemoryMapEntry.fromSize 64 0x1000 0x1000 0x100).mirror 0x2000).logicalBase
          ≠ ((MemoryMapEntry.fromSize 64 0x1000 0x1000 0x100).mirror 0x2000).size
      ∧ sizeSub 64 ((MemoryMapEntry.fromSize 64 0x1000 0x1000 0x100).mirror 0x2000).physicalEnd
          ((MemoryMapEntry.fromSize 64 0x1000 0x1000 0x100).mirror 0x2000).physicalBase
          = ((MemoryMapEntry.fromSize 64 0x1000 0x1000 0x100).mirror 0x2000).size := by
  decide

/-- The mirror of an entry keeps `logicalEnd`, so its logical extent is the
old end minus the new base. -/
theorem MemoryMapEntry.mirror_logicalEnd (e : MemoryMapEntry) (X : MemoryAddress) :
    (e.mirror X).logicalEnd = e.logicalEnd ∧ (e.mirrorSize X).logicalEnd = e.logicalEnd :=
  ⟨rfl, rfl⟩

/-- C10. Both overloads of `mirror` return an entry flagged as a mirror whose
logical base is the argument and whose physical base, physical end and size
are those of the receiver; the receiver is a value the call does not write to
(`mirror` is `const` and works on a copy), so it is the same entry after the
call. -/
theorem MemoryMapEntry.mirror_frame (e : MemoryMapEntry) (X : Nat) :
    (e.mirror X).isMirror = true ∧ (e.mirror X).logicalBase = X
      ∧ (e.mirror X).physicalBase = e.physicalBase
      ∧ (e.mirror X).physicalEnd = e.physicalEnd
      ∧ (e.mirror X).size = e.size
      ∧ (e.mirrorSize X).isMirror = true ∧ (e.mirrorSize X).logicalBase = X
      ∧ (e.mirrorSize X).physicalBase = e.physicalBase
      ∧ (e.mirrorSize X).physicalEnd = e.physicalEnd
      ∧ (e.mirrorSize X).size = e.size :=
  ⟨rfl, rfl, rfl, rfl, rfl, rfl, rfl, rfl, rfl, rfl⟩

/-! ## ScannerTargetWindows: attach -/

theorem ScannerTargetWindows.isAttached_iff (s : ScannerTargetWindows) :
    s.isAttached = true ↔ s.processHandle ≠ 0 := by
  simp [ScannerTargetWindows.isAttached]

/-- When `OpenProcess` fails, `attach` returns `false` and the backend holds
no handle afterwards. -/
theorem ScannerTargetWindows.attach_open_fails (w : Nat) (os : Win32) (s : ScannerTargetWindows)
    (pid : ProcessIdentifier)
    (hopen : os.OpenProcess
      (PROCESS_VM_OPERATION ||| PROCESS_VM_READ ||| PROCESS_VM_WRITE
        ||| PROCESS_QUERY_INFORMATION ||| PROCESS_CREATE_THREAD) false (pid % 2 ^ 32) = 0) :
    (ScannerTargetWindows.attach w os s pid).1 = false
      ∧ (ScannerTargetWindows.attach w os s pid).2.isAttached = false := by
  unfold ScannerTargetWindows.attach
  simp only [hopen, if_true, true_and]
  by_cases h : s.isAttached = true
  · simp only [h, if_true]
    rfl
  · simp only [h]
    simpa using h

/-- When `OpenProcess` returns a handle, the backend holds that handle after
`attach`, whatever `attach` returns. -/
theorem ScannerTargetWindows.attach_keeps_opened_handle (w : Nat) (os : Win32)
    (s : ScannerTargetWindows) (pid : ProcessIdentifier)
    (hopen : os.OpenProcess
      (PROCESS_VM_OPERATION ||| PROCESS_VM_READ ||| PROCESS_VM_WRITE
        ||| PROCESS_QUERY_INFORMATION ||| PROCESS_CREATE_THREAD) false (pid % 2 ^ 32) ≠ 0) :
    (ScannerTargetWindows.attach w os s pid).2.processHandle
      = os.OpenProcess
          (PROCESS_VM_OPERATION ||| PROCESS_VM_READ ||| PROCESS_VM_WRITE
            ||| PROCESS_QUERY_INFORMATION ||| PROCESS_CREATE_THREAD) false (pid % 2 ^ 32) := by
  unfold ScannerTargetWindows.attach
  simp only [hopen, if_false]
  repeat' split
  all_goals rfl

/-- C1. Evaluation of `attach` from the unattached backend, 64-bit. On
`osBaseZero` the process opens and the main-module base resolves to `0`; on
`osModuleInfoFails` the base is `0x400000` and the module-information query
fails. Both calls return `false`, and after both `isAttached` is `true`: the
backend holds the handle `0x1234`. -/
theorem ScannerTargetWindows.attach_failure_stays_attached :
    ScannerTargetWindows.getMainModuleBaseAddress 64 osBaseZero
        { unattachedTarget with processHandle := 0x1234 } = 0
      ∧ (ScannerTargetWindows.attach 64 osBaseZero unattachedTarget 77).1 = false
      ∧ (ScannerTargetWindows.attach 64 osBaseZero unattachedTarget 77).2.isAttached = true
      ∧ (ScannerTargetWindows.attach 64 osBaseZero unattachedTarget 77).2.processHandle = 0x1234
      ∧ ScannerTargetWindows.getMainModuleBaseAddress 64 osModuleInfoFails
        { unattachedTarget with processHandle := 0x1234 } = 0x400000
      ∧ osModuleInfoFails.GetModuleInformation 0x1234 0x400000 = none
      ∧ (ScannerTargetWindows.attach 64 osModuleInfoFails unattachedTarget 77).1 = false
      ∧ (ScannerTargetWindows.attach 64 osModuleInfoFails unattachedTarget 77).2.isAttached = true
      ∧ (ScannerTargetWindows.attach 64 osModuleInfoFails unattachedTarget 77).2.processHandle
          = 0x1234 := by
  decide

/-! ## ScannerTargetWindows: queryMemory -/

/-- On an attached backend `queryMemory` returns, and it returns `false`
exactly when `VirtualQueryEx` fails. -/
theorem ScannerTargetWindows.queryMemory_attached (w : Nat) (os : Win32)
    (s : ScannerTargetWindows) (adr : MemoryAddress) (meminfo : MemoryInformation)
    (hatt : s.isAttached = true) :
    ∃ r, ScannerTargetWindows.queryMemory w os s adr meminfo = some r
      ∧ (r.1 = false ↔ os.VirtualQueryEx s.processHandle adr = none) := by
  unfold ScannerTargetWindows.queryMemory ScannerTargetWindows.ASSERT
  simp only [hatt, if_true]
  cases h : os.VirtualQueryEx s.processHandle adr with
  | none => exact ⟨_, rfl, by simp⟩
  | some m => exact ⟨_, rfl, by simp⟩

/-- C2, as stated, is false. 64-bit backend with a page size of 4096: the
failed query at `2 ^ 64 - 4096` returns `nextAdr = 0`, which is not above the
queried address. A backend that holds a handle and has a page size of `0`
returns `nextAdr = adr`. -/
theorem ScannerTargetWindows.queryMemory_failure_wraps :
    attachedTarget.isAttached = true
      ∧ osBaseZero.VirtualQueryEx attachedTarget.processHandle (2 ^ 64 - 4096) = none
      ∧ ScannerTargetWindows.queryMemory 64 osBaseZero attachedTarget (2 ^ 64 - 4096) blankInfo
          = some (false, blankInfo, 0)
      ∧ ¬ (2 ^ 64 - 4096 < 0)
      ∧ ({ attachedTarget with pageSize := 0 } : ScannerTargetWindows).isAttached = true
      ∧ ScannerTargetWindows.queryMemory 64 osBaseZero { attachedTarget with pageSize := 0 }
          0x10000 blankInfo = some (false, blankInfo, 0x10000)
      ∧ ¬ (0x10000 < 0x10000) := by
  decide

/-- C2, amended. On an attached backend with a page size of at least 1, a
query at `adr` for which `VirtualQueryEx` fails, with `adr + pageSize` below
`2 ^ w`, returns `false`, leaves `meminfo` as it was, and sets
`nextAdr = adr + pageSize`: `nextAdr` is above `adr` and
`nextAdr - adr = pageSize`. -/
theorem ScannerTargetWindows.queryMemory_failure_advances (w : Nat) (os : Win32)
    (s : ScannerTargetWindows) (adr : MemoryAddress) (meminfo : MemoryInformation)
    (hatt : s.isAttached = true)
    (hfail : os.VirtualQueryEx s.processHandle adr = none)
    (hpage : 1 ≤ s.pageSize) (hfit : adr + s.pageSize < 2 ^ w) :
    ∃ nextAdr, ScannerTargetWindows.queryMemory w os s adr meminfo
        = some (false, meminfo, nextAdr)
      ∧ nextAdr = adr + s.pageSize ∧ adr < nextAdr ∧ nextAdr - adr = s.pageSize
      ∧ sizeSub w nextAdr adr = s.pageSize := by
  refine ⟨sizeAdd w adr s.pageSize, ?_, sizeAdd_of_lt w _ _ hfit, ?_, ?_, ?_⟩
  · unfold ScannerTargetWindows.queryMemory ScannerTargetWindows.ASSERT
    simp only [hatt, if_true, hfail]
  · rw [sizeAdd_of_lt w _ _ hfit]
    exact Nat.lt_add_of_pos_right hpage
  · rw [sizeAdd_of_lt w _ _ hfit]
    exact Nat.add_sub_cancel_left adr s.pageSize
  · exact sizeSub_sizeAdd_of_lt w _ _ (Nat.lt_of_le_of_lt (Nat.le_add_left _ _) hfit)

theorem ScannerTargetWindows.queryMemory_failure_advances_witness :
    ∃ nextAdr, ScannerTargetWindows.queryMemory 64 osBaseZero attachedTarget 0x10000 blankInfo
        = some (false, blankInfo, nextAdr)
      ∧ nextAdr = 0x10000 + attachedTarget.pageSize ∧ 0x10000 < nextAdr
      ∧ nextAdr - 0x10000 = attachedTarget.pageSize
      ∧ sizeSub 64 nextAdr 0x10000 = attachedTarget.pageSize :=
  ScannerTargetWindows.queryMemory_failure_advances 64 osBaseZero attachedTarget 0x10000
    blankInfo (by decide) (by decide) (by decide) (by decide)

/-- C9. On an attached backend, a query for which `VirtualQueryEx` succeeds
returns `true` with `allocationEnd = allocationBase + allocationSize` modulo
`2 ^ w` (base and size as the operating system reported them) and
`nextAdr = allocationEnd`. -/
theorem ScannerTargetWindows.queryMemory_success (w : Nat) (os : Win32)
    (s : ScannerTargetWindows) (adr : MemoryAddress) (meminfo : MemoryInformation)
    (memoryInfo : MEMORY_BASIC_INFORMATION)
    (hatt : s.isAttached = true)
    (hok : os.VirtualQueryEx s.processHandle adr = some memoryInfo) :
    ∃ out nextAdr, ScannerTargetWindows.queryMemory w os s adr meminfo
        = some (true, out, nextAdr)
      ∧ out.allocationBase = memoryInfo.BaseAddress
      ∧ out.allocationSize = memoryInfo.RegionSize
      ∧ out.allocationEnd = (out.allocationBase + out.allocationSize) % 2 ^ w
      ∧ nextAdr = out.allocationEnd := by
  unfold ScannerTargetWindows.queryMemory ScannerTargetWindows.ASSERT
  simp only [hatt, if_true, hok]
  exact ⟨_, _, rfl, rfl, rfl, rfl, rfl⟩

theorem ScannerTargetWindows.queryMemory_success_witness :
    ∃ out nextAdr, ScannerTargetWindows.queryMemory 64 osRegion attachedTarget 0x21000 blankInfo
        = some (true, out, nextAdr)
      ∧ out.allocationBase = 0x20000
      ∧ out.allocationSize = 0x3000
      ∧ out.allocationEnd = (out.allocationBase + out.allocationSize) % 2 ^ 64
      ∧ nextAdr = out.allocationEnd :=
  ScannerTargetWindows.queryMemory_success 64 osRegion attachedTarget 0x21000 blankInfo
    { BaseAddress := 0x20000, AllocationBase := 0x20000, RegionSize := 0x3000,
      State := MEM_COMMIT, Protect := PAGE_READWRITE } (by decide) rfl

/-! ## std::map and std::set as ascending lists -/

section Containers

variable {K V : Type} [LinearOrder K]

theorem mapFind_mapAssign_self (m : List (K × V)) (k : K) (v : V) :
    mapFind (mapAssign m k v) k = some v := by
  induction m with
  | nil => simp [mapAssign, mapFind]
  | cons hd tl ih =>
    obtain ⟨k1, v1⟩ := hd
    by_cases h1 : k < k1
    · simp [mapAssign, mapFind, h1]
    · by_cases h2 : k1 < k
      · simp [mapAssign, mapFind, h1, h2, ih]
      · simp [mapAssign, mapFind, h1, h2]

theorem mapFind_mapAssign_of_ne (m : List (K × V)) (k k2 : K) (v : V) (hne : k2 ≠ k) :
    mapFind (mapAssign m k v) k2 = mapFind m k2 := by
  induction m with
  | nil =>
    rcases lt_or_gt_of_ne hne with h | h
    · simp [mapAssign, mapFind, h]
    · simp [mapAssign, mapFind, h, not_lt_of_gt h]
  | cons hd tl ih =>
    obtain ⟨k1, v1⟩ := hd
    by_cases h1 : k < k1
    · rcases lt_or_gt_of_ne hne with h | h
      · simp [mapAssign, mapFind, h1, h, lt_trans h h1]
      · simp [mapAssign, mapFind, h1, h, not_lt_of_gt h]
    · by_cases h2 : k1 < k
      · simp [mapAssign, mapFind, h1, h2, ih]
      · have hk : k1 = k := le_antisymm (not_lt.mp h1) (not_lt.mp h2)
        subst hk
        rcases lt_or_gt_of_ne hne with h | h
        · simp [mapAssign, mapFind, h]
        · simp [mapAssign, mapFind, h, not_lt_of_gt h]

theorem mem_mapAssign (m : List (K × V)) (k : K) (v : V) (e : K × V)
    (he : e ∈ mapAssign m k v) : e ∈ m ∨ e = (k, v) := by
  induction m with
  | nil =>
    simp only [mapAssign, List.mem_singleton] at he
    exact Or.inr he
  | cons hd tl ih =>
    obtain ⟨k1, v1⟩ := hd
    by_cases h1 : k < k1
    · simp only [mapAssign, h1, if_true, List.mem_cons] at he
      rcases he with he | he | he
      · exact Or.inr he
      · exact Or.inl (List.mem_cons.mpr (Or.inl he))
      · exact Or.inl (List.mem_cons.mpr (Or.inr he))
    · by_cases h2 : k1 < k
      · simp only [mapAssign, h1, h2, if_true, if_false, List.mem_cons] at he
        rcases he with he | he
        · exact Or.inl (List.mem_cons.mpr (Or.inl he))
        · rcases ih he with h | h
          · exact Or.inl (List.mem_cons.mpr (Or.inr h))
          · exact Or.inr h
      · have hk : k1 = k := le_antisymm (not_lt.mp h1) (not_lt.mp h2)
        subst hk
        simp only [mapAssign, h1, if_false, List.mem_cons] at he
        rcases he with he | he
        · exact Or.inr he
        · exact Or.inl (List.mem_cons.mpr (Or.inr he))

theorem keys_mapAssign (m : List (K × V)) (k k2 : K) (v : V) :
    k2 ∈ (mapAssign m k v).map Prod.fst ↔ k2 = k ∨ k2 ∈ m.map Prod.fst := by
  induction m with
  | nil => simp [mapAssign]
  | cons hd tl ih =>
    obtain ⟨k1, v1⟩ := hd
    by_cases h1 : k < k1
    · simp [mapAssign, h1]
    · by_cases h2 : k1 < k
      · simp only [mapAssign, h1, h2, if_true, if_false, List.map_cons, List.mem_cons, ih]
        tauto
      · have hk : k1 = k := le_antisymm (not_lt.mp h1) (not_lt.mp h2)
        subst hk
        simp [mapAssign]

theorem mapFind_eq_none_of_not_mem (m : List (K × V)) (k : K)
    (h : k ∉ m.map Prod.fst) : mapFind m k = none := by
  induction m with
  | nil => rfl
  | cons hd tl ih =>
    obtain ⟨k1, v1⟩ := hd
    simp only [List.map_cons, List.mem_cons, not_or] at h
    by_cases h1 : k < k1
    · simp [mapFind, h1]
    · by_cases h2 : k1 < k
      · simp [mapFind, h1, h2, ih h.2]
      · exact absurd (le_antisymm (not_lt.mp h2) (not_lt.mp h1)) h.1

theorem sorted_mapAssign (m : List (K × V)) (k : K) (v : V)
    (hm : (m.map Prod.fst).Pairwise (· < ·)) :
    ((mapAssign m k v).map Prod.fst).Pairwise (· < ·) := by
  induction m with
  | nil => simp [mapAssign]
  | cons hd tl ih =>
    obtain ⟨k1, v1⟩ := hd
    simp only [List.map_cons, List.pairwise_cons] at hm
    by_cases h1 : k < k1
    · simp only [mapAssign, h1, if_true, List.map_cons, List.pairwise_cons, List.mem_cons]
      refine ⟨?_, hm.1, hm.2⟩
      rintro a (rfl | ha)
      · exact h1
      · exact lt_trans h1 (hm.1 a ha)
    · by_cases h2 : k1 < k
      · simp only [mapAssign, h1, h2, if_true, if_false, List.map_cons, List.pairwise_cons]
        refine ⟨?_, ih hm.2⟩
        intro a ha
        rcases (keys_mapAssign tl k a v).mp ha with rfl | ha
        · exact h2
        · exact hm.1 a ha
      · simp only [mapAssign, h1, h2, if_false, List.map_cons, List.pairwise_cons]
        exact hm

theorem mem_mapAssign_key_iff (m : List (K × V)) (k : K) (v p : V)
    (hm : (m.map Prod.fst).Pairwise (· < ·)) :
    (k, p) ∈ mapAssign m k v ↔ p = v := by
  induction m with
  | nil => simp [mapAssign]
  | cons hd tl ih =>
    obtain ⟨k1, v1⟩ := hd
    simp only [List.map_cons, List.pairwise_cons] at hm
    have htl : ∀ q, (k, q) ∈ tl → k1 < k := fun q hq =>
      hm.1 k (List.mem_map.mpr ⟨(k, q), hq, rfl⟩)
    by_cases h1 : k < k1
    · simp only [mapAssign, h1, if_true, List.mem_cons, Prod.mk.injEq, true_and]
      constructor
      · rintro (h | h | h)
        · exact h
        · exact absurd h.1 (ne_of_lt h1)
        · exact absurd (htl p h) (not_lt_of_gt h1)
      · exact Or.inl
    · by_cases h2 : k1 < k
      · simp only [mapAssign, h1, h2, if_true, if_false, List.mem_cons, Prod.mk.injEq, ih hm.2]
        constructor
        · rintro (h | h)
          · exact absurd h.1 (ne_of_gt h2)
          · exact h
        · exact Or.inr
      · have hk : k1 = k := le_antisymm (not_lt.mp h1) (not_lt.mp h2)
        subst hk
        simp only [mapAssign, h1, if_false, List.mem_cons, Prod.mk.injEq, true_and]
        constructor
        · rintro (h | h)
          · exact h
          · exact absurd (htl p h) (lt_irrefl _)
        · exact Or.inl

theorem mem_setInsert (s : List K) (k k2 : K) :
    k2 ∈ setInsert s k ↔ k2 = k ∨ k2 ∈ s := by
  induction s with
  | nil => simp [setInsert]
  | cons k1 tl ih =>
    by_cases h1 : k < k1
    · simp [setInsert, h1]
    · by_cases h2 : k1 < k
      · simp only [setInsert, h1, h2, if_true, if_false, List.mem_cons, ih]
        tauto
      · have hk : k1 = k := le_antisymm (not_lt.mp h1) (not_lt.mp h2)
        subst hk
        simp [setInsert]

theorem sorted_setInsert (s : List K) (k : K) (hs : s.Pairwise (· < ·)) :
    (setInsert s k).Pairwise (· < ·) := by
  induction s with
  | nil => simp [setInsert]
  | cons k1 tl ih =>
    simp only [List.pairwise_cons] at hs
    by_cases h1 : k < k1
    · simp only [setInsert, h1, if_true, List.pairwise_cons, List.mem_cons]
      refine ⟨?_, hs.1, hs.2⟩
      rintro a (rfl | ha)
      · exact h1
      · exact lt_trans h1 (hs.1 a ha)
    · by_cases h2 : k1 < k
      · simp only [setInsert, h1, h2, if_true, if_false, List.pairwise_cons]
        refine ⟨?_, ih hs.2⟩
        intro a ha
        rcases (mem_setInsert tl k a).mp ha with rfl | ha
        · exact h2
        · exact hs.1 a ha
      · simp only [setInsert, h1, h2, if_false, List.pairwise_cons]
        exact hs

theorem mem_foldl_setInsert (l : List (K × V)) (acc : List K) (k : K) :
    k ∈ l.foldl (fun ret prod => setInsert ret prod.1) acc ↔ k ∈ acc ∨ k ∈ l.map Prod.fst := by
  induction l generalizing acc with
  | nil => simp
  | cons hd tl ih =>
    simp only [List.foldl_cons, ih, mem_setInsert, List.map_cons, List.mem_cons]
    tauto

theorem sorted_foldl_setInsert (l : List (K × V)) (acc : List K)
    (hacc : acc.Pairwise (· < ·)) :
    (l.foldl (fun ret prod => setInsert ret prod.1) acc).Pairwise (· < ·) := by
  induction l generalizing acc with
  | nil => simpa using hacc
  | cons hd tl ih =>
    simp only [List.foldl_cons]
    exact ih _ (sorted_setInsert acc hd.1 hacc)

/-- Two strictly ascending lists with the same elements are the same list. -/
theorem ascending_ext (l1 l2 : List K) (h1 : l1.Pairwise (· < ·)) (h2 : l2.Pairwise (· < ·))
    (hmem : ∀ k, k ∈ l1 ↔ k ∈ l2) : l1 = l2 := by
  have n1 : l1.Nodup := h1.imp (fun h => ne_of_lt h)
  have n2 : l2.Nodup := h2.imp (fun h => ne_of_lt h)
  exact List.eq_of_perm_of_sorted ((List.perm_ext_iff_of_nodup n1 n2).mpr hmem) h1 h2

end Containers

/-! ## KeyedFactory -/

namespace KeyedFactory

variable {K A : Type} [LinearOrder K]

theorem registerAll_append (f : KeyedFactory K A) (ps : List (KeyedProducerBase K A))
    (p : KeyedProducerBase K A) :
    registerAll f (ps ++ [p]) = registerProducer (registerAll f ps) p := by
  simp [registerAll, List.foldl_append]

/-- The producer found under `k` after a run of registrations is the one
registered last under `k`; without one, the lookup is that of the registry
before the run. -/
theorem mapFind_registerAll (f : KeyedFactory K A) (ps : List (KeyedProducerBase K A)) (k : K) :
    mapFind (registerAll f ps).producers k
      = match ps.reverse.find? (fun p => decide (p.getKey = k)) with
        | some p => some p
        | none => mapFind f.producers k := by
  induction ps using List.reverseRecOn with
  | nil => simp [registerAll]
  | append_singleton ps p ih =>
    rw [registerAll_append, List.reverse_append, List.reverse_singleton, List.singleton_append,
      List.find?_cons]
    by_cases hk : p.getKey = k
    · subst hk
      simp [registerProducer, mapFind_mapAssign_self]
    · have hk2 : k ≠ p.getKey := fun h => hk h.symm
      simp only [registerProducer, mapFind_mapAssign_of_ne _ _ _ _ hk2, ih, hk, decide_False]

theorem keys_registerAll (f : KeyedFactory K A) (ps : List (KeyedProducerBase K A)) (k : K) :
    k ∈ (registerAll f ps).producers.map Prod.fst
      ↔ k ∈ f.producers.map Prod.fst ∨ k ∈ ps.map (fun p => p.getKey) := by
  induction ps using List.reverseRecOn with
  | nil => simp [registerAll]
  | append_singleton ps p ih =>
    rw [registerAll_append]
    simp only [registerProducer, keys_mapAssign, ih, List.map_append, List.mem_append,
      List.map_cons, List.map_nil, List.mem_singleton]
    tauto

theorem sorted_registerAll (f : KeyedFactory K A) (ps : List (KeyedProducerBase K A))
    (hf : (f.producers.map Prod.fst).Pairwise (· < ·)) :
    ((registerAll f ps).producers.map Prod.fst).Pairwise (· < ·) := by
  induction ps using List.reverseRecOn with
  | nil => simpa [registerAll] using hf
  | append_singleton ps p ih =>
    rw [registerAll_append]
    exact sorted_mapAssign _ _ _ ih

theorem entries_registerAll (ps : List (KeyedProducerBase K A)) :
    ∀ e ∈ (registerAll (new : KeyedFactory K A) ps).producers, e.2.getKey = e.1 := by
  induction ps using List.reverseRecOn with
  | nil => simp [registerAll, new]
  | append_singleton ps p ih =>
    rw [registerAll_append]
    intro e he
    rcases mem_mapAssign _ _ _ _ he with h | h
    · exact ih e h
    · rw [h]

theorem mem_getKeys (f : KeyedFactory K A) (k : K) :
    k ∈ getKeys f ↔ k ∈ f.producers.map Prod.fst := by
  simp [getKeys, mem_foldl_setInsert]

theorem sorted_getKeys (f : KeyedFactory K A) : (getKeys f).Pairwise (· < ·) :=
  sorted_foldl_setInsert _ _ List.Pairwise.nil

/-- C3. After any run of `registerProducer` calls on a fresh factory with
`KeyedProducer` objects, `createInstance k` for a registered key `k` returns a
non-null instance, the one made by a registered producer whose `getKey()` is
`k`; and every map entry `(k2, p)` has `p.getKey() = k2`. -/
theorem createInstance_registered (ps : List (KeyedProducerBase K A)) (k : K)
    (hT : ∀ p ∈ ps, ∃ Key newT, p = KeyedProducer Key newT)
    (hreg : ∃ p ∈ ps, p.getKey = k) :
    (∃ p ∈ ps, p.getKey = k
        ∧ createInstance (registerAll (new : KeyedFactory K A) ps) k = p.createInstance
        ∧ (createInstance (registerAll (new : KeyedFactory K A) ps) k).isSome = true)
      ∧ ∀ e ∈ (registerAll (new : KeyedFactory K A) ps).producers, e.2.getKey = e.1 := by
  refine ⟨?_, entries_registerAll ps⟩
  obtain ⟨q, hq, hqk⟩ := hreg
  have hsome : (ps.reverse.find? (fun p => decide (p.getKey = k))).isSome = true := by
    rw [List.find?_isSome]
    exact ⟨q, List.mem_reverse.mpr hq, by simpa using hqk⟩
  obtain ⟨p, hp⟩ := Option.isSome_iff_exists.mp hsome
  have hmem : p ∈ ps := List.mem_reverse.mp (List.mem_of_find?_eq_some hp)
  have hkey : p.getKey = k := by simpa using List.find?_some hp
  have hfind : mapFind (registerAll (new : KeyedFactory K A) ps).producers k = some p := by
    rw [mapFind_registerAll, hp]
  obtain ⟨Key, newT, hprod⟩ := hT p hmem
  refine ⟨p, hmem, hkey, ?_, ?_⟩
  · simp [createInstance, hfind]
  · simp [createInstance, hfind, hprod, KeyedProducer]

theorem createInstance_registered_witness :
    (∃ p ∈ [KeyedProducer 2 20, KeyedProducer 1 10, KeyedProducer 2 21], p.getKey = 2
        ∧ createInstance (registerAll (new : KeyedFactory Nat Nat)
            [KeyedProducer 2 20, KeyedProducer 1 10, KeyedProducer 2 21]) 2 = p.createInstance
        ∧ (createInstance (registerAll (new : KeyedFactory Nat Nat)
            [KeyedProducer 2 20, KeyedProducer 1 10, KeyedProducer 2 21]) 2).isSome = true)
      ∧ ∀ e ∈ (registerAll (new : KeyedFactory Nat Nat)
            [KeyedProducer 2 20, KeyedProducer 1 10, KeyedProducer 2 21]).producers,
          e.2.getKey = e.1 :=
  createInstance_registered [KeyedProducer 2 20, KeyedProducer 1 10, KeyedProducer 2 21] 2
    (by
      intro p hp
      simp only [List.mem_cons, List.mem_singleton, List.not_mem_nil, or_false] at hp
      rcases hp with rfl | rfl | rfl
      · exact ⟨2, 20, rfl⟩
      · exact ⟨1, 10, rfl⟩
      · exact ⟨2, 21, rfl⟩)
    ⟨KeyedProducer 2 20, by simp, rfl⟩

/-- C4. After any run of `registerProducer` calls on a fresh factory, a key
`k` that is the key of no registered producer gets the null result from
`createInstance`, and `getKeys()` does not contain it. -/
theorem createInstance_unregistered (ps : List (KeyedProducerBase K A)) (k : K)
    (hun : ∀ p ∈ ps, p.getKey ≠ k) :
    createInstance (registerAll (new : KeyedFactory K A) ps) k = none
      ∧ k ∉ getKeys (registerAll (new : KeyedFactory K A) ps) := by
  have hkeys : k ∉ (registerAll (new : KeyedFactory K A) ps).producers.map Prod.fst := by
    rw [keys_registerAll]
    simp only [new, List.map_nil, List.not_mem_nil, false_or, List.mem_map, not_exists, not_and]
    exact fun p hp => hun p hp
  refine ⟨?_, fun h => hkeys ((mem_getKeys _ _).mp h)⟩
  simp [createInstance, mapFind_eq_none_of_not_mem _ _ hkeys]

theorem createInstance_unregistered_witness :
    createInstance (registerAll (new : KeyedFactory Nat Nat)
        [KeyedProducer 2 20, KeyedProducer 1 10]) 3 = none
      ∧ 3 ∉ getKeys (registerAll (new : KeyedFactory Nat Nat)
        [KeyedProducer 2 20, KeyedProducer 1 10]) :=
  createInstance_unregistered [KeyedProducer 2 20, KeyedProducer 1 10] 3
    (by
      intro p hp
      simp only [List.mem_cons, List.mem_singleton, List.not_mem_nil, or_false] at hp
      rcases hp with rfl | rfl
      · simp [KeyedProducer]
      · simp [KeyedProducer])

/-- C7. Two runs of `registerProducer` calls on fresh factories that use the
same set of keys, in any order and with any repetitions, give the same
`getKeys()`: an ascending list whose elements are exactly the keys `getKey()`
returned by the registered producers. -/
theorem getKeys_order_independent (ps1 ps2 : List (KeyedProducerBase K A))
    (hsame : ∀ k, k ∈ ps1.map (fun p => p.getKey) ↔ k ∈ ps2.map (fun p => p.getKey)) :
    getKeys (registerAll (new : KeyedFactory K A) ps1)
        = getKeys (registerAll (new : KeyedFactory K A) ps2)
      ∧ (∀ k, k ∈ getKeys (registerAll (new : KeyedFactory K A) ps1)
          ↔ k ∈ ps1.map (fun p => p.getKey))
      ∧ (getKeys (registerAll (new : KeyedFactory K A) ps1)).Pairwise (· < ·) := by
  have hmem : ∀ (ps : List (KeyedProducerBase K A)) (k : K),
      k ∈ getKeys (registerAll (new : KeyedFactory K A) ps) ↔ k ∈ ps.map (fun p => p.getKey) := by
    intro ps k
    rw [mem_getKeys, keys_registerAll]
    simp [new]
  refine ⟨?_, hmem ps1, sorted_getKeys _⟩
  apply ascending_ext _ _ (sorted_getKeys _) (sorted_getKeys _)
  intro k
  rw [hmem ps1, hmem ps2]
  exact hsame k

theorem getKeys_order_independent_witness :
    getKeys (registerAll (new : KeyedFactory Nat Nat)
          [KeyedProducer 2 20, KeyedProducer 1 10, KeyedProducer 2 21])
        = getKeys (registerAll (new : KeyedFactory Nat Nat)
          [KeyedProducer 1 11, KeyedProducer 2 22])
      ∧ (∀ k, k ∈ getKeys (registerAll (new : KeyedFactory Nat Nat)
            [KeyedProducer 2 20, KeyedProducer 1 10, KeyedProducer 2 21])
          ↔ k ∈ [KeyedProducer 2 20, KeyedProducer 1 10, KeyedProducer 2 21].map
              (fun p => p.getKey))
      ∧ (getKeys (registerAll (new : KeyedFactory Nat Nat)
          [KeyedProducer 2 20, KeyedProducer 1 10, KeyedProducer 2 21])).Pairwise (· < ·) :=
  getKeys_order_independent [KeyedProducer 2 20, KeyedProducer 1 10, KeyedProducer 2 21]
    [KeyedProducer 1 11, KeyedProducer 2 22]
    (by
      intro k
      simp only [List.map_cons, List.map_nil, KeyedProducer, List.mem_cons, List.mem_singleton,
        List.not_mem_nil, or_false]
      tauto)

/-- C8. On any registry (a map with ascending keys), registering `p1` and then
`p2`, both with key `k`, leaves `p2` as the one producer stored under `k`:
`createInstance k` is `p2.createInstance()`, the only entry with key `k` is
`(k, p2)`, and `k` occurs once in `getKeys()`. Both calls return a registry:
no error result exists. -/
theorem registerProducer_twice (f : KeyedFactory K A) (p1 p2 : KeyedProducerBase K A) (k : K)
    (hf : (f.producers.map Prod.fst).Pairwise (· < ·))
    (h1 : p1.getKey = k) (h2 : p2.getKey = k) :
    createInstance (registerProducer (registerProducer f p1) p2) k = p2.createInstance
      ∧ (∀ p, (k, p) ∈ (registerProducer (registerProducer f p1) p2).producers ↔ p = p2)
      ∧ (getKeys (registerProducer (registerProducer f p1) p2)).count k = 1 := by
  subst h1
  refine ⟨?_, ?_, ?_⟩
  · simp [createInstance, registerProducer, h2, mapFind_mapAssign_self]
  · intro p
    simp only [registerProducer, h2]
    exact mem_mapAssign_key_iff _ _ _ _ (sorted_mapAssign _ _ _ hf)
  · apply List.count_eq_one_of_mem
    · exact (sorted_getKeys _).imp (fun h => ne_of_lt h)
    · rw [mem_getKeys]
      exact (keys_mapAssign _ _ _ _).mpr (Or.inl h2.symm)

theorem registerProducer_twice_witness :
    createInstance (registerProducer (registerProducer
        (registerAll (new : KeyedFactory Nat Nat) [KeyedProducer 1 10, KeyedProducer 3 30])
        (KeyedProducer 2 20)) (KeyedProducer 2 21)) 2 = (KeyedProducer 2 21).createInstance
      ∧ (∀ p, (2, p) ∈ (registerProducer (registerProducer
        (registerAll (new : KeyedFactory Nat Nat) [KeyedProducer 1 10, KeyedProducer 3 30])
        (KeyedProducer 2 20)) (KeyedProducer 2 21)).producers ↔ p = KeyedProducer 2 21)
      ∧ (getKeys (registerProducer (registerProducer
        (registerAll (new : KeyedFactory Nat Nat) [KeyedProducer 1 10, KeyedProducer 3 30])
        (KeyedProducer 2 20)) (KeyedProducer 2 21))).count 2 = 1 :=
  registerProducer_twice
    (registerAll (new : KeyedFactory Nat Nat) [KeyedProducer 1 10, KeyedProducer 3 30])
    (KeyedProducer 2 20) (KeyedProducer 2 21) 2
    (sorted_registerAll _ _ (by simp [new])) rfl rfl

end KeyedFactory

end XenoScan
